import Mathlib

/-!
Verification of the FaceAI repository's single native function
`Java_com_felix_face_YuvToRgbConverter_nativeConvertAndroid420ToBitmap`
(src/FaceAi/src/main/cpp/faceai-jni.cpp) against its natural-language
specification.

The function is a JNI bridge: it queries the destination bitmap's info,
locks its pixels, resolves the three source plane buffer addresses, calls
`libyuv::Android420ToABGR`, and unlocks the pixels.

Embedding choices:
* Byte-addressable memory is `Int → Nat` (pointer arithmetic uses `Int`;
  32-bit overflow is irrelevant to every claim considered here).
* The JNI environment and the Android bitmap subsystem are external
  collaborators; they are modelled as records of resolution results
  (`none` models a NULL return / negative status code).
* The body of `libyuv::Android420ToABGR` is not part of this repository
  (only its declaration via the libyuv header and its call site are), so
  it is modelled from the specification's description of the external
  conversion routine.
* The C function returns `void` and signals failure by a bare early
  return.  The embedding records which exit path was taken
  (`ExitStatus`) together with an event trace of the collaborator calls
  made; the specification's error taxonomy is a separate mapping
  `specOutcome` from exit paths to `BufferAccessError` /
  `InvalidDimensionsError` / success, following the spec's stated
  upgrade of silent returns to explicit result values.
-/

namespace FaceAI

/-- Byte-addressable memory: each (integer) address holds a byte value.
Byte values are `Nat`; nothing in the claims depends on the 0..255 bound. -/
def Mem : Type := Int → Nat

/-- One packed destination pixel.  The destination format is fixed:
32-bit, byte order B-G-R-A in memory (byte 0 = B, 1 = G, 2 = R, 3 = A). -/
structure ABGRPixel where
  b : Nat
  g : Nat
  r : Nat
  a : Nat
deriving DecidableEq

/-- The byte of a packed pixel at channel offset `c` (0 = B, 1 = G,
2 = R, 3 = A). -/
def ABGRPixel.byte (p : ABGRPixel) (c : Nat) : Nat :=
  match c with
  | 0 => p.b
  | 1 => p.g
  | 2 => p.r
  | _ => p.a

/-- Modelled from the spec: the per-pixel "standard YUV→RGB transform"
applied by the external conversion routine.  The spec fixes only that it
is a per-pixel function of the sampled Y, U, V values (colorimetry and
rounding live in the external library), so the transform is kept
abstract: every theorem below holds for an arbitrary `PixFn`. -/
def PixFn : Type := Nat → Nat → Nat → ABGRPixel

/-- Read a luma sample: plane base address plus `y * stride + x`. -/
def sampleY (mem : Mem) (base : Int) (stride : Int) (x y : Nat) : Nat :=
  mem (base + (y : Int) * stride + (x : Int))

/-- Read a chroma sample for destination pixel `(x, y)`: 4:2:0 chroma is
half resolution in both dimensions, so the sample sits at chroma row
`y / 2`, chroma column `x / 2`, with `pixStride` bytes between
consecutive chroma samples in a row (1 = planar, 2 = interleaved). -/
def sampleChroma (mem : Mem) (base : Int) (stride pixStride : Int) (x y : Nat) : Nat :=
  mem (base + ((y / 2 : Nat) : Int) * stride + ((x / 2 : Nat) : Int) * pixStride)

/-- Update one byte of memory. -/
def setByte (m : Mem) (addr : Int) (v : Nat) : Mem :=
  fun a => if a = addr then v else m a

/-- Destination address of channel byte `c` of pixel `(x, y)`:
`dst + stride * y + 4 * x + c`. -/
def dstAddr (dst : Int) (stride : Nat) (x y c : Nat) : Int :=
  dst + ((y * stride + (4 * x + c) : Nat) : Int)

/-- The three resolved source planes together with their strides and the
chroma pixel stride, as passed to the conversion routine. -/
structure SrcPlanes where
  yBase : Int
  yStride : Int
  uBase : Int
  uStride : Int
  vBase : Int
  vStride : Int
  pixStrideUV : Int

/-- The color-converted pixel `(x, y)`: the abstract per-pixel transform
applied to the sampled Y, U, V values.  Samples are read from the
pre-call memory `src` (the spec requires that the destination not alias
any source plane). -/
def convertedPixel (pix : PixFn) (src : Mem) (pl : SrcPlanes) (x y : Nat) : ABGRPixel :=
  pix (sampleY src pl.yBase pl.yStride x y)
      (sampleChroma src pl.uBase pl.uStride pl.pixStrideUV x y)
      (sampleChroma src pl.vBase pl.vStride pl.pixStrideUV x y)

/-- Write the 4 bytes of converted pixel `(x, y)` at
`dst + stride * y + 4 * x`, in B, G, R, A byte order. -/
def writePixel (m : Mem) (dst : Int) (stride : Nat) (x y : Nat) (p : ABGRPixel) : Mem :=
  setByte (setByte (setByte (setByte m
    (dstAddr dst stride x y 0) p.b)
    (dstAddr dst stride x y 1) p.g)
    (dstAddr dst stride x y 2) p.r)
    (dstAddr dst stride x y 3) p.a

/-- Write one destination row `y`: pixels `x = 0, …, w - 1` left to
right. -/
def writeRow (pix : PixFn) (src : Mem) (pl : SrcPlanes) (dst : Int) (stride : Nat)
    (y w : Nat) (m : Mem) : Mem :=
  (List.range w).foldl
    (fun acc x => writePixel acc dst stride x y (convertedPixel pix src pl x y)) m

/-- Modelled from the spec: the external routine "writes the packed
result row-by-row honoring the destination stride" — rows
`y = 0, …, h - 1` top to bottom. -/
def android420Write (pix : PixFn) (src : Mem) (pl : SrcPlanes) (dst : Int) (stride : Nat)
    (w h : Nat) (m : Mem) : Mem :=
  (List.range h).foldl (fun acc y => writeRow pix src pl dst stride y w acc) m

/-- Modelled from the spec: `libyuv::Android420ToABGR` (external library;
its body is not in this repository).  Per the spec it "reconstructs
full-resolution chroma from the (possibly subsampled, possibly
interleaved) U/V planes using the supplied pixel stride …, applies the
standard YUV→RGB transform per pixel, and writes the packed result
row-by-row honoring the destination stride".  The routine is specified
only for resolved (non-NULL) plane addresses and positive dimensions;
for an unresolved plane or non-positive `width`/`height` (where the
spec calls the behavior unspecified) it is modelled as writing
nothing. -/
def Android420ToABGR (pix : PixFn) (mem : Mem)
    (srcY : Option Int) (yStride : Int)
    (srcU : Option Int) (uStride : Int)
    (srcV : Option Int) (vStride : Int)
    (pixStrideUV : Int)
    (dst : Int) (dstStride : Nat) (width height : Int) : Mem :=
  match srcY, srcU, srcV with
  | some ay, some au, some av =>
      android420Write pix mem ⟨ay, yStride, au, uStride, av, vStride, pixStrideUV⟩
        dst dstStride width.toNat height.toNat mem
  | _, _, _ => mem

/-- The subset of `AndroidBitmapInfo` the function reads (only `stride`
is used by the code; the other fields are carried for fidelity). -/
structure AndroidBitmapInfo where
  width : Nat
  height : Nat
  stride : Nat
  format : Nat
deriving DecidableEq

/-- Observable collaborator calls made by the function, in order. -/
inductive Event where
  | getInfo (ok : Bool)
  | lockPixels (ok : Bool)
  | resolveAddress (plane : Nat) (ok : Bool)
  | invokeConversion
  | unlockPixels
deriving DecidableEq

/-- Which exit path the (void-returning) C function took. -/
inductive ExitStatus where
  | infoQueryFailed
  | lockFailed
  | completed
deriving DecidableEq

/-- The specification's error taxonomy. -/
inductive ConversionError where
  | BufferAccessError
  | InvalidDimensionsError
deriving DecidableEq

/-- A result value in the specification's vocabulary. -/
inductive SpecResult where
  | ok
  | error (e : ConversionError)
deriving DecidableEq

/-- The spec's mapping of the code's silent early returns to explicit
error values: a destination handle that cannot be queried or locked is a
`BufferAccessError` ("a required buffer handle could not be resolved or
locked"); normal return is success. -/
def specOutcome : ExitStatus → SpecResult
  | .infoQueryFailed => .error .BufferAccessError
  | .lockFailed => .error .BufferAccessError
  | .completed => .ok

/-- The JNI environment collaborator: resolves an opaque direct-buffer
handle to its base address (`none` models a NULL return from
`GetDirectBufferAddress`). -/
structure JniEnv where
  getDirectBufferAddress : Nat → Option Int

/-- The Android bitmap subsystem collaborator, specialised to the one
output bitmap of the call: the result of `AndroidBitmap_getInfo`
(`none` models a negative status) and of `AndroidBitmap_lockPixels`
(`none` models a negative status, `some p` the locked pixels base
address). -/
structure BitmapEnv where
  getInfo : Option AndroidBitmapInfo
  lockPixels : Option Int

/-- The arguments of the native function (buffer handles are opaque
`Nat` ids; `jint` arguments are `Int`). -/
structure ConvertArgs where
  yBuffer : Nat
  yStride : Int
  uBuffer : Nat
  uStride : Int
  uPixelStride : Int
  vBuffer : Nat
  vStride : Int
  vPixelStride : Int
  width : Int
  height : Int

/-- Exit path, final memory, and event trace of one call. -/
structure ConvertOutput where
  status : ExitStatus
  mem : Mem
  trace : List Event

/-- Shallow embedding of
`Java_com_felix_face_YuvToRgbConverter_nativeConvertAndroid420ToBitmap`
(faceai-jni.cpp), step by step:
1. `AndroidBitmap_getInfo` — on negative status, bare `return`;
2. `AndroidBitmap_lockPixels` — on negative status, bare `return`;
3. `GetDirectBufferAddress` on the three source buffers (results are
   NOT checked by the code);
4. `libyuv::Android420ToABGR(src_y, y_stride, src_u, u_stride, src_v,
   v_stride, u_pixel_stride, pixels, info.stride, width, height)` —
   note `u_pixel_stride` is passed as the single chroma pixel stride
   and `v_pixel_stride` is never read;
5. `AndroidBitmap_unlockPixels`. -/
def nativeConvertAndroid420ToBitmap (pix : PixFn) (env : JniEnv) (bmp : BitmapEnv)
    (mem : Mem) (args : ConvertArgs) : ConvertOutput :=
  match bmp.getInfo with
  | none => ⟨.infoQueryFailed, mem, [.getInfo false]⟩
  | some info =>
    match bmp.lockPixels with
    | none => ⟨.lockFailed, mem, [.getInfo true, .lockPixels false]⟩
    | some pixels =>
      let srcY := env.getDirectBufferAddress args.yBuffer
      let srcU := env.getDirectBufferAddress args.uBuffer
      let srcV := env.getDirectBufferAddress args.vBuffer
      let mem' := Android420ToABGR pix mem srcY args.yStride srcU args.uStride
        srcV args.vStride args.uPixelStride pixels info.stride args.width args.height
      ⟨.completed, mem',
        [.getInfo true, .lockPixels true,
         .resolveAddress 0 srcY.isSome, .resolveAddress 1 srcU.isSome,
         .resolveAddress 2 srcV.isSome,
         .invokeConversion, .unlockPixels]⟩

/-! ### Address arithmetic -/

theorem dstAddr_eq_iff (dst : Int) (s : Nat) (x y c x' y' c' : Nat) :
    dstAddr dst s x y c = dstAddr dst s x' y' c' ↔
      y * s + (4 * x + c) = y' * s + (4 * x' + c') := by
  unfold dstAddr
  constructor
  · intro h
    exact_mod_cast add_left_cancel h
  · intro h
    rw [h]

theorem rowOff_unique (s y y' r r' : Nat) (hr : r < s) (hr' : r' < s)
    (h : y * s + r = y' * s + r') : y = y' ∧ r = r' := by
  have hyy : y = y' := by
    rcases Nat.lt_trichotomy y y' with hlt | heq | hgt
    · exfalso
      have h1 : (y + 1) * s ≤ y' * s := mul_le_mul_right' (by omega) s
      rw [add_one_mul] at h1
      generalize y * s = A at h1 h
      generalize y' * s = B at h1 h
      omega
    · exact heq
    · exfalso
      have h1 : (y' + 1) * s ≤ y * s := mul_le_mul_right' (by omega) s
      rw [add_one_mul] at h1
      generalize y * s = A at h1 h
      generalize y' * s = B at h1 h
      omega
  subst hyy
  exact ⟨rfl, Nat.add_left_cancel h⟩

/-! ### Frame and value lemmas for the modelled conversion routine -/

theorem writePixel_frame (m : Mem) (dst : Int) (s : Nat) (x y : Nat) (p : ABGRPixel)
    (a : Int) (h : ∀ c, c < 4 → a ≠ dstAddr dst s x y c) :
    writePixel m dst s x y p a = m a := by
  unfold writePixel setByte
  rw [if_neg (h 3 (by omega)), if_neg (h 2 (by omega)), if_neg (h 1 (by omega)),
    if_neg (h 0 (by omega))]

theorem writePixel_value (m : Mem) (dst : Int) (s : Nat) (x y : Nat) (p : ABGRPixel)
    (c : Nat) (hc : c < 4) :
    writePixel m dst s x y p (dstAddr dst s x y c) = p.byte c := by
  have hne : ∀ c1 c2 : Nat, c1 ≠ c2 → dstAddr dst s x y c1 ≠ dstAddr dst s x y c2 := by
    intro c1 c2 hne hEq
    rw [dstAddr_eq_iff] at hEq
    exact hne (by omega)
  interval_cases c
  · unfold writePixel setByte
    rw [if_neg (hne 0 3 (by omega)), if_neg (hne 0 2 (by omega)),
      if_neg (hne 0 1 (by omega)), if_pos rfl]
    rfl
  · unfold writePixel setByte
    rw [if_neg (hne 1 3 (by omega)), if_neg (hne 1 2 (by omega)), if_pos rfl]
    rfl
  · unfold writePixel setByte
    rw [if_neg (hne 2 3 (by omega)), if_pos rfl]
    rfl
  · unfold writePixel setByte
    rw [if_pos rfl]
    rfl

theorem writeRow_succ (pix : PixFn) (src : Mem) (pl : SrcPlanes) (dst : Int) (s : Nat)
    (y w : Nat) (m : Mem) :
    writeRow pix src pl dst s y (w + 1) m =
      writePixel (writeRow pix src pl dst s y w m) dst s w y
        (convertedPixel pix src pl w y) := by
  unfold writeRow
  rw [List.range_succ, List.foldl_append]
  rfl

theorem writeRow_frame (pix : PixFn) (src : Mem) (pl : SrcPlanes) (dst : Int) (s : Nat)
    (y w : Nat) (m : Mem) (a : Int)
    (h : ∀ x, x < w → ∀ c, c < 4 → a ≠ dstAddr dst s x y c) :
    writeRow pix src pl dst s y w m a = m a := by
  induction w with
  | zero => rfl
  | succ n ih =>
    rw [writeRow_succ]
    rw [writePixel_frame _ _ _ _ _ _ _ (fun c hc => h n (by omega) c hc)]
    exact ih (fun x hx c hc => h x (by omega) c hc)

theorem writeRow_value (pix : PixFn) (src : Mem) (pl : SrcPlanes) (dst : Int) (s : Nat)
    (y w : Nat) (m : Mem) (x c : Nat) (hx : x < w) (hc : c < 4) :
    writeRow pix src pl dst s y w m (dstAddr dst s x y c) =
      (convertedPixel pix src pl x y).byte c := by
  induction w with
  | zero => omega
  | succ n ih =>
    rw [writeRow_succ]
    by_cases hxn : x = n
    · subst hxn
      exact writePixel_value _ _ _ _ _ _ _ hc
    · have hne : ∀ c', c' < 4 → dstAddr dst s x y c ≠ dstAddr dst s n y c' := by
        intro c' hc' hEq
        rw [dstAddr_eq_iff] at hEq
        have := Nat.add_left_cancel hEq
        omega
      rw [writePixel_frame _ _ _ _ _ _ _ hne]
      exact ih (by omega)

theorem android420Write_succ (pix : PixFn) (src : Mem) (pl : SrcPlanes) (dst : Int)
    (s : Nat) (w h : Nat) (m : Mem) :
    android420Write pix src pl dst s w (h + 1) m =
      writeRow pix src pl dst s h w (android420Write pix src pl dst s w h m) := by
  unfold android420Write
  rw [List.range_succ, List.foldl_append]
  rfl

theorem android420Write_frame (pix : PixFn) (src : Mem) (pl : SrcPlanes) (dst : Int)
    (s : Nat) (w h : Nat) (m : Mem) (a : Int)
    (hout : ∀ y, y < h → ∀ x, x < w → ∀ c, c < 4 → a ≠ dstAddr dst s x y c) :
    android420Write pix src pl dst s w h m a = m a := by
  induction h with
  | zero => rfl
  | succ n ih =>
    rw [android420Write_succ]
    rw [writeRow_frame _ _ _ _ _ _ _ _ _ (fun x hx c hc => hout n (by omega) x hx c hc)]
    exact ih (fun y hy x hx c hc => hout y (by omega) x hx c hc)

theorem android420Write_value (pix : PixFn) (src : Mem) (pl : SrcPlanes) (dst : Int)
    (s : Nat) (w h : Nat) (m : Mem) (x y c : Nat)
    (hs : 4 * w ≤ s) (hy : y < h) (hx : x < w) (hc : c < 4) :
    android420Write pix src pl dst s w h m (dstAddr dst s x y c) =
      (convertedPixel pix src pl x y).byte c := by
  induction h with
  | zero => omega
  | succ n ih =>
    rw [android420Write_succ]
    by_cases hyn : y = n
    · subst hyn
      exact writeRow_value _ _ _ _ _ _ _ _ _ _ hx hc
    · have hne : ∀ x', x' < w → ∀ c', c' < 4 → dstAddr dst s x y c ≠ dstAddr dst s x' n c' := by
        intro x' hx' c' hc' hEq
        rw [dstAddr_eq_iff] at hEq
        have hrb : 4 * x + c < s := by omega
        have hrb' : 4 * x' + c' < s := by omega
        have := (rowOff_unique s y n _ _ hrb hrb' hEq).1
        omega
      rw [writeRow_frame _ _ _ _ _ _ _ _ _ hne]
      exact ih (by omega)

theorem android420Write_of_degenerate (pix : PixFn) (src : Mem) (pl : SrcPlanes)
    (dst : Int) (s : Nat) (w h : Nat) (m : Mem) (hd : w = 0 ∨ h = 0) :
    android420Write pix src pl dst s w h m = m := by
  funext a
  apply android420Write_frame
  intro y hy x hx c hc
  rcases hd with h0 | h0 <;> omega

theorem Android420ToABGR_of_degenerate (pix : PixFn) (mem : Mem)
    (srcY : Option Int) (yS : Int) (srcU : Option Int) (uS : Int)
    (srcV : Option Int) (vS : Int) (puv : Int) (dst : Int) (ds : Nat)
    (w h : Int) (hd : w ≤ 0 ∨ h ≤ 0) :
    Android420ToABGR pix mem srcY yS srcU uS srcV vS puv dst ds w h = mem := by
  unfold Android420ToABGR
  rcases srcY with _ | ay
  · rfl
  rcases srcU with _ | au
  · rfl
  rcases srcV with _ | av
  · rfl
  apply android420Write_of_degenerate
  rcases hd with h0 | h0
  · exact Or.inl (Int.toNat_of_nonpos h0)
  · exact Or.inr (Int.toNat_of_nonpos h0)

theorem Android420ToABGR_of_unresolved (pix : PixFn) (mem : Mem)
    (srcY : Option Int) (yS : Int) (srcU : Option Int) (uS : Int)
    (srcV : Option Int) (vS : Int) (puv : Int) (dst : Int) (ds : Nat)
    (w h : Int) (hd : srcY = none ∨ srcU = none ∨ srcV = none) :
    Android420ToABGR pix mem srcY yS srcU uS srcV vS puv dst ds w h = mem := by
  unfold Android420ToABGR
  rcases srcY with _ | ay
  · rfl
  rcases srcU with _ | au
  · rfl
  rcases srcV with _ | av
  · rfl
  simp at hd

/-! ### Claim theorems -/

/-- Claim C4: every call either runs the full transform (the conversion
routine is invoked, on the unique non-abort path) or aborts with the
destination memory unchanged and the conversion routine never invoked —
the failures that cause an abort are detected before the conversion
routine can write. -/
theorem convert_atomic_on_error (pix : PixFn) (env : JniEnv) (bmp : BitmapEnv)
    (mem : Mem) (args : ConvertArgs) :
    ((nativeConvertAndroid420ToBitmap pix env bmp mem args).status ≠ ExitStatus.completed ∧
      (nativeConvertAndroid420ToBitmap pix env bmp mem args).mem = mem ∧
      Event.invokeConversion ∉ (nativeConvertAndroid420ToBitmap pix env bmp mem args).trace) ∨
    ((nativeConvertAndroid420ToBitmap pix env bmp mem args).status = ExitStatus.completed ∧
      Event.invokeConversion ∈ (nativeConvertAndroid420ToBitmap pix env bmp mem args).trace) := by
  unfold nativeConvertAndroid420ToBitmap
  rcases hI : bmp.getInfo with _ | info
  · exact Or.inl ⟨by simp, rfl, by simp⟩
  rcases hL : bmp.lockPixels with _ | pixels
  · exact Or.inl ⟨by simp, rfl, by simp⟩
  refine Or.inr ⟨rfl, ?_⟩
  simp

/-- Claim C5: when the destination pixel buffer fails to lock, the call
aborts with `BufferAccessError` (in the spec's vocabulary for the bare
early return), the conversion routine is never invoked, and the
destination memory is unchanged. -/
theorem convert_lock_failure_aborts (pix : PixFn) (env : JniEnv) (bmp : BitmapEnv)
    (mem : Mem) (args : ConvertArgs) (info : AndroidBitmapInfo)
    (hInfo : bmp.getInfo = some info) (hLock : bmp.lockPixels = none) :
    specOutcome (nativeConvertAndroid420ToBitmap pix env bmp mem args).status =
        SpecResult.error ConversionError.BufferAccessError ∧
      Event.invokeConversion ∉ (nativeConvertAndroid420ToBitmap pix env bmp mem args).trace ∧
      (nativeConvertAndroid420ToBitmap pix env bmp mem args).mem = mem := by
  unfold nativeConvertAndroid420ToBitmap
  rw [hInfo, hLock]
  exact ⟨rfl, by simp, rfl⟩

/-- Claim C6: on every exit path on which the destination lock was
acquired (the trace records a successful `lockPixels`), the lock is
released before the function returns (the trace records
`unlockPixels`). -/
theorem convert_lock_released_on_exit (pix : PixFn) (env : JniEnv) (bmp : BitmapEnv)
    (mem : Mem) (args : ConvertArgs)
    (h : Event.lockPixels true ∈ (nativeConvertAndroid420ToBitmap pix env bmp mem args).trace) :
    Event.unlockPixels ∈ (nativeConvertAndroid420ToBitmap pix env bmp mem args).trace := by
  unfold nativeConvertAndroid420ToBitmap at h ⊢
  rcases hI : bmp.getInfo with _ | info
  · rw [hI] at h
    simp at h
  rcases hL : bmp.lockPixels with _ | pixels
  · rw [hI, hL] at h
    simp at h
  simp

/-- Claim C9: the result of a call (exit status, final memory and trace
alike) does not depend on the `v_pixel_stride` argument: the parameter
is accepted but never read (only `u_pixel_stride` is passed to the
conversion routine). -/
theorem convert_ignores_vPixelStride (pix : PixFn) (env : JniEnv) (bmp : BitmapEnv)
    (mem : Mem) (args : ConvertArgs) (p q : Int) :
    nativeConvertAndroid420ToBitmap pix env bmp mem { args with vPixelStride := p } =
      nativeConvertAndroid420ToBitmap pix env bmp mem { args with vPixelStride := q } := rfl

/-- Claim C10: when querying the destination bitmap's info fails, the
call returns at once: the destination buffer is never locked, no source
address is resolved, the conversion routine is not invoked, and the
destination memory is unchanged. -/
theorem convert_info_query_failure_early_exit (pix : PixFn) (env : JniEnv)
    (bmp : BitmapEnv) (mem : Mem) (args : ConvertArgs)
    (hInfo : bmp.getInfo = none) :
    (nativeConvertAndroid420ToBitmap pix env bmp mem args).trace = [Event.getInfo false] ∧
      (∀ b, Event.lockPixels b ∉ (nativeConvertAndroid420ToBitmap pix env bmp mem args).trace) ∧
      (∀ i b, Event.resolveAddress i b ∉
        (nativeConvertAndroid420ToBitmap pix env bmp mem args).trace) ∧
      Event.invokeConversion ∉ (nativeConvertAndroid420ToBitmap pix env bmp mem args).trace ∧
      (nativeConvertAndroid420ToBitmap pix env bmp mem args).mem = mem := by
  unfold nativeConvertAndroid420ToBitmap
  rw [hInfo]
  refine ⟨rfl, ?_, ?_, by simp, rfl⟩
  · intro b
    simp
  · intro i b
    simp

/-- Claim C1 (amended): the code performs no dimension validation: a
call with non-positive width or height is not rejected with
`InvalidDimensionsError`; when the info query and the lock succeed, the
conversion routine is invoked regardless (the modelled routine writes
nothing for non-positive dimensions, so the destination memory is
unchanged). -/
theorem convert_nonpositive_dims_not_rejected (pix : PixFn) (env : JniEnv)
    (bmp : BitmapEnv) (mem : Mem) (args : ConvertArgs) (info : AndroidBitmapInfo)
    (pixels : Int) (hdim : args.width ≤ 0 ∨ args.height ≤ 0)
    (hInfo : bmp.getInfo = some info) (hLock : bmp.lockPixels = some pixels) :
    specOutcome (nativeConvertAndroid420ToBitmap pix env bmp mem args).status ≠
        SpecResult.error ConversionError.InvalidDimensionsError ∧
      Event.invokeConversion ∈ (nativeConvertAndroid420ToBitmap pix env bmp mem args).trace ∧
      (nativeConvertAndroid420ToBitmap pix env bmp mem args).mem = mem := by
  have hst : (nativeConvertAndroid420ToBitmap pix env bmp mem args).status =
      ExitStatus.completed := by
    unfold nativeConvertAndroid420ToBitmap
    rw [hInfo, hLock]
  have hmem : (nativeConvertAndroid420ToBitmap pix env bmp mem args).mem = mem := by
    unfold nativeConvertAndroid420ToBitmap
    rw [hInfo, hLock]
    exact Android420ToABGR_of_degenerate _ _ _ _ _ _ _ _ _ _ _ _ _ hdim
  have htr : Event.invokeConversion ∈
      (nativeConvertAndroid420ToBitmap pix env bmp mem args).trace := by
    unfold nativeConvertAndroid420ToBitmap
    rw [hInfo, hLock]
    simp
  refine ⟨?_, htr, hmem⟩
  rw [hst]
  decide

/-- Claim C1 is false on the code at a concrete input: a call with
width = 0 (info query, lock and all three address resolutions
succeeding) does not return `InvalidDimensionsError`, and the conversion
routine is invoked. -/
theorem convert_nonpositive_dims_claim_false :
    specOutcome (nativeConvertAndroid420ToBitmap (fun _ _ _ => ⟨0, 0, 0, 255⟩)
        ⟨fun _ => some 100⟩ ⟨some ⟨2, 2, 8, 0⟩, some 200⟩ (fun _ => 0)
        ⟨0, 2, 1, 2, 1, 2, 2, 1, 0, 2⟩).status ≠
      SpecResult.error ConversionError.InvalidDimensionsError ∧
    Event.invokeConversion ∈ (nativeConvertAndroid420ToBitmap (fun _ _ _ => ⟨0, 0, 0, 255⟩)
        ⟨fun _ => some 100⟩ ⟨some ⟨2, 2, 8, 0⟩, some 200⟩ (fun _ => 0)
        ⟨0, 2, 1, 2, 1, 2, 2, 1, 0, 2⟩).trace := by
  exact ⟨by decide, by decide⟩

theorem convert_nonpositive_dims_not_rejected_witness :
    (((⟨0, 2, 1, 2, 1, 2, 2, 1, 0, 2⟩ : ConvertArgs).width ≤ 0 ∨
        ((⟨0, 2, 1, 2, 1, 2, 2, 1, 0, 2⟩ : ConvertArgs).height ≤ 0)) ∧
      (⟨some ⟨2, 2, 8, 0⟩, some 200⟩ : BitmapEnv).getInfo = some ⟨2, 2, 8, 0⟩ ∧
      (⟨some ⟨2, 2, 8, 0⟩, some 200⟩ : BitmapEnv).lockPixels = some 200) ∧
    (specOutcome (nativeConvertAndroid420ToBitmap (fun _ _ _ => ⟨1, 2, 3, 255⟩)
        ⟨fun _ => some 10⟩ ⟨some ⟨2, 2, 8, 0⟩, some 200⟩ (fun _ => 5)
        ⟨0, 2, 1, 2, 1, 2, 2, 1, 0, 2⟩).status ≠
        SpecResult.error ConversionError.InvalidDimensionsError ∧
      Event.invokeConversion ∈ (nativeConvertAndroid420ToBitmap (fun _ _ _ => ⟨1, 2, 3, 255⟩)
        ⟨fun _ => some 10⟩ ⟨some ⟨2, 2, 8, 0⟩, some 200⟩ (fun _ => 5)
        ⟨0, 2, 1, 2, 1, 2, 2, 1, 0, 2⟩).trace ∧
      (nativeConvertAndroid420ToBitmap (fun _ _ _ => ⟨1, 2, 3, 255⟩)
        ⟨fun _ => some 10⟩ ⟨some ⟨2, 2, 8, 0⟩, some 200⟩ (fun _ => 5)
        ⟨0, 2, 1, 2, 1, 2, 2, 1, 0, 2⟩).mem = (fun _ => 5)) :=
  ⟨⟨Or.inl (by decide), rfl, rfl⟩,
    convert_nonpositive_dims_not_rejected _ _ _ _ _ _ _ (Or.inl (by decide)) rfl rfl⟩

/-- Claim C2 (amended): source-address resolution failures are not
detected: when any source plane address fails to resolve (and the info
query and the lock succeed), the call does not abort — it completes with
no `BufferAccessError`, the conversion routine is invoked with the
unresolved plane (the modelled routine then writes nothing, so the
destination is unchanged), and the destination lock is still released
before return. -/
theorem convert_resolution_failure_not_detected (pix : PixFn) (env : JniEnv)
    (bmp : BitmapEnv) (mem : Mem) (args : ConvertArgs) (info : AndroidBitmapInfo)
    (pixels : Int)
    (hInfo : bmp.getInfo = some info) (hLock : bmp.lockPixels = some pixels)
    (hres : env.getDirectBufferAddress args.yBuffer = none ∨
      env.getDirectBufferAddress args.uBuffer = none ∨
      env.getDirectBufferAddress args.vBuffer = none) :
    specOutcome (nativeConvertAndroid420ToBitmap pix env bmp mem args).status =
        SpecResult.ok ∧
      Event.invokeConversion ∈ (nativeConvertAndroid420ToBitmap pix env bmp mem args).trace ∧
      Event.unlockPixels ∈ (nativeConvertAndroid420ToBitmap pix env bmp mem args).trace ∧
      (nativeConvertAndroid420ToBitmap pix env bmp mem args).mem = mem := by
  have hst : (nativeConvertAndroid420ToBitmap pix env bmp mem args).status =
      ExitStatus.completed := by
    unfold nativeConvertAndroid420ToBitmap
    rw [hInfo, hLock]
  have hmem : (nativeConvertAndroid420ToBitmap pix env bmp mem args).mem = mem := by
    unfold nativeConvertAndroid420ToBitmap
    rw [hInfo, hLock]
    exact Android420ToABGR_of_unresolved _ _ _ _ _ _ _ _ _ _ _ _ _ hres
  have htr : Event.invokeConversion ∈
      (nativeConvertAndroid420ToBitmap pix env bmp mem args).trace := by
    unfold nativeConvertAndroid420ToBitmap
    rw [hInfo, hLock]
    simp
  have hun : Event.unlockPixels ∈
      (nativeConvertAndroid420ToBitmap pix env bmp mem args).trace := by
    unfold nativeConvertAndroid420ToBitmap
    rw [hInfo, hLock]
    simp
  refine ⟨?_, htr, hun, hmem⟩
  rw [hst]
  decide

/-- Claim C2 is false on the code at a concrete input: a call in which
no source plane address resolves (the JNI environment returns NULL for
every buffer) completes normally — no `BufferAccessError` abort — and
the conversion routine is invoked. -/
theorem convert_resolution_failure_claim_false :
    specOutcome (nativeConvertAndroid420ToBitmap (fun _ _ _ => ⟨0, 0, 0, 255⟩)
        ⟨fun _ => none⟩ ⟨some ⟨2, 2, 8, 0⟩, some 200⟩ (fun _ => 0)
        ⟨0, 2, 1, 2, 1, 2, 2, 1, 2, 2⟩).status = SpecResult.ok ∧
    Event.invokeConversion ∈ (nativeConvertAndroid420ToBitmap (fun _ _ _ => ⟨0, 0, 0, 255⟩)
        ⟨fun _ => none⟩ ⟨some ⟨2, 2, 8, 0⟩, some 200⟩ (fun _ => 0)
        ⟨0, 2, 1, 2, 1, 2, 2, 1, 2, 2⟩).trace := by
  exact ⟨by decide, by decide⟩

theorem convert_resolution_failure_not_detected_witness :
    ((⟨some ⟨2, 2, 8, 0⟩, some 200⟩ : BitmapEnv).getInfo = some ⟨2, 2, 8, 0⟩ ∧
      (⟨some ⟨2, 2, 8, 0⟩, some 200⟩ : BitmapEnv).lockPixels = some 200 ∧
      ((⟨fun _ => none⟩ : JniEnv).getDirectBufferAddress
          ((⟨0, 2, 1, 2, 1, 2, 2, 1, 2, 2⟩ : ConvertArgs).yBuffer) = none ∨
        (⟨fun _ => none⟩ : JniEnv).getDirectBufferAddress
          ((⟨0, 2, 1, 2, 1, 2, 2, 1, 2, 2⟩ : ConvertArgs).uBuffer) = none ∨
        (⟨fun _ => none⟩ : JniEnv).getDirectBufferAddress
          ((⟨0, 2, 1, 2, 1, 2, 2, 1, 2, 2⟩ : ConvertArgs).vBuffer) = none)) ∧
    (specOutcome (nativeConvertAndroid420ToBitmap (fun _ _ _ => ⟨1, 2, 3, 255⟩)
        ⟨fun _ => none⟩ ⟨some ⟨2, 2, 8, 0⟩, some 200⟩ (fun _ => 5)
        ⟨0, 2, 1, 2, 1, 2, 2, 1, 2, 2⟩).status = SpecResult.ok ∧
      Event.invokeConversion ∈ (nativeConvertAndroid420ToBitmap (fun _ _ _ => ⟨1, 2, 3, 255⟩)
        ⟨fun _ => none⟩ ⟨some ⟨2, 2, 8, 0⟩, some 200⟩ (fun _ => 5)
        ⟨0, 2, 1, 2, 1, 2, 2, 1, 2, 2⟩).trace ∧
      Event.unlockPixels ∈ (nativeConvertAndroid420ToBitmap (fun _ _ _ => ⟨1, 2, 3, 255⟩)
        ⟨fun _ => none⟩ ⟨some ⟨2, 2, 8, 0⟩, some 200⟩ (fun _ => 5)
        ⟨0, 2, 1, 2, 1, 2, 2, 1, 2, 2⟩).trace ∧
      (nativeConvertAndroid420ToBitmap (fun _ _ _ => ⟨1, 2, 3, 255⟩)
        ⟨fun _ => none⟩ ⟨some ⟨2, 2, 8, 0⟩, some 200⟩ (fun _ => 5)
        ⟨0, 2, 1, 2, 1, 2, 2, 1, 2, 2⟩).mem = (fun _ => 5)) :=
  ⟨⟨rfl, rfl, Or.inl rfl⟩,
    convert_resolution_failure_not_detected _ _ _ _ _ _ _ rfl rfl (Or.inl rfl)⟩

theorem convert_lock_failure_aborts_witness :
    ((⟨some ⟨2, 2, 8, 0⟩, none⟩ : BitmapEnv).getInfo = some ⟨2, 2, 8, 0⟩ ∧
      (⟨some ⟨2, 2, 8, 0⟩, none⟩ : BitmapEnv).lockPixels = none) ∧
    (specOutcome (nativeConvertAndroid420ToBitmap (fun _ _ _ => ⟨1, 2, 3, 255⟩)
        ⟨fun _ => some 10⟩ ⟨some ⟨2, 2, 8, 0⟩, none⟩ (fun _ => 5)
        ⟨0, 2, 1, 2, 1, 2, 2, 1, 2, 2⟩).status =
        SpecResult.error ConversionError.BufferAccessError ∧
      Event.invokeConversion ∉ (nativeConvertAndroid420ToBitmap (fun _ _ _ => ⟨1, 2, 3, 255⟩)
        ⟨fun _ => some 10⟩ ⟨some ⟨2, 2, 8, 0⟩, none⟩ (fun _ => 5)
        ⟨0, 2, 1, 2, 1, 2, 2, 1, 2, 2⟩).trace ∧
      (nativeConvertAndroid420ToBitmap (fun _ _ _ => ⟨1, 2, 3, 255⟩)
        ⟨fun _ => some 10⟩ ⟨some ⟨2, 2, 8, 0⟩, none⟩ (fun _ => 5)
        ⟨0, 2, 1, 2, 1, 2, 2, 1, 2, 2⟩).mem = (fun _ => 5)) :=
  ⟨⟨rfl, rfl⟩, convert_lock_failure_aborts _ _ _ _ _ _ rfl rfl⟩

theorem convert_lock_released_on_exit_witness :
    Event.lockPixels true ∈ (nativeConvertAndroid420ToBitmap (fun _ _ _ => ⟨1, 2, 3, 255⟩)
        ⟨fun _ => some 10⟩ ⟨some ⟨2, 2, 8, 0⟩, some 200⟩ (fun _ => 5)
        ⟨0, 2, 1, 2, 1, 2, 2, 1, 2, 2⟩).trace ∧
    Event.unlockPixels ∈ (nativeConvertAndroid420ToBitmap (fun _ _ _ => ⟨1, 2, 3, 255⟩)
        ⟨fun _ => some 10⟩ ⟨some ⟨2, 2, 8, 0⟩, some 200⟩ (fun _ => 5)
        ⟨0, 2, 1, 2, 1, 2, 2, 1, 2, 2⟩).trace :=
  ⟨by decide, convert_lock_released_on_exit _ _ _ _ _ (by decide)⟩

theorem convert_info_query_failure_early_exit_witness :
    (⟨none, some 200⟩ : BitmapEnv).getInfo = none ∧
    ((nativeConvertAndroid420ToBitmap (fun _ _ _ => ⟨1, 2, 3, 255⟩)
        ⟨fun _ => some 10⟩ ⟨none, some 200⟩ (fun _ => 5)
        ⟨0, 2, 1, 2, 1, 2, 2, 1, 2, 2⟩).trace = [Event.getInfo false] ∧
      (∀ b, Event.lockPixels b ∉ (nativeConvertAndroid420ToBitmap (fun _ _ _ => ⟨1, 2, 3, 255⟩)
        ⟨fun _ => some 10⟩ ⟨none, some 200⟩ (fun _ => 5)
        ⟨0, 2, 1, 2, 1, 2, 2, 1, 2, 2⟩).trace) ∧
      (∀ i b, Event.resolveAddress i b ∉
        (nativeConvertAndroid420ToBitmap (fun _ _ _ => ⟨1, 2, 3, 255⟩)
          ⟨fun _ => some 10⟩ ⟨none, some 200⟩ (fun _ => 5)
          ⟨0, 2, 1, 2, 1, 2, 2, 1, 2, 2⟩).trace) ∧
      Event.invokeConversion ∉ (nativeConvertAndroid420ToBitmap (fun _ _ _ => ⟨1, 2, 3, 255⟩)
        ⟨fun _ => some 10⟩ ⟨none, some 200⟩ (fun _ => 5)
        ⟨0, 2, 1, 2, 1, 2, 2, 1, 2, 2⟩).trace ∧
      (nativeConvertAndroid420ToBitmap (fun _ _ _ => ⟨1, 2, 3, 255⟩)
        ⟨fun _ => some 10⟩ ⟨none, some 200⟩ (fun _ => 5)
        ⟨0, 2, 1, 2, 1, 2, 2, 1, 2, 2⟩).mem = (fun _ => 5)) :=
  ⟨rfl, convert_info_query_failure_early_exit _ _ _ _ _ rfl⟩

theorem convert_completed_mem (pix : PixFn) (env : JniEnv) (bmp : BitmapEnv)
    (mem : Mem) (args : ConvertArgs) (info : AndroidBitmapInfo) (pixels ay au av : Int)
    (hInfo : bmp.getInfo = some info) (hLock : bmp.lockPixels = some pixels)
    (hY : env.getDirectBufferAddress args.yBuffer = some ay)
    (hU : env.getDirectBufferAddress args.uBuffer = some au)
    (hV : env.getDirectBufferAddress args.vBuffer = some av) :
    (nativeConvertAndroid420ToBitmap pix env bmp mem args).mem =
      android420Write pix mem
        ⟨ay, args.yStride, au, args.uStride, av, args.vStride, args.uPixelStride⟩
        pixels info.stride args.width.toNat args.height.toNat mem := by
  simp only [nativeConvertAndroid420ToBitmap, hInfo, hLock, Android420ToABGR, hY, hU, hV]

/-- Claim C3: on a successful call (info query, lock, and all three
source-plane address resolutions succeed; the destination stride can
hold a row, `4 * width ≤ stride`), the destination buffer is overwritten
so that pixel (x, y), for all 0 ≤ x < width and 0 ≤ y < height, occupies
the 4 bytes starting at offset `stride * y + 4 * x` of the locked pixel
base, stored in B, G, R, A byte order: channel byte `c` (0 = B, 1 = G,
2 = R, 3 = A) of the color-converted, chroma-upsampled pixel lands at
that offset plus `c`. -/
theorem convert_writes_bgra_layout (pix : PixFn) (env : JniEnv) (bmp : BitmapEnv)
    (mem : Mem) (args : ConvertArgs) (info : AndroidBitmapInfo) (pixels ay au av : Int)
    (hInfo : bmp.getInfo = some info) (hLock : bmp.lockPixels = some pixels)
    (hY : env.getDirectBufferAddress args.yBuffer = some ay)
    (hU : env.getDirectBufferAddress args.uBuffer = some au)
    (hV : env.getDirectBufferAddress args.vBuffer = some av)
    (hs : 4 * args.width.toNat ≤ info.stride) :
    ∀ x, x < args.width.toNat → ∀ y, y < args.height.toNat → ∀ c, c < 4 →
      (nativeConvertAndroid420ToBitmap pix env bmp mem args).mem
          (dstAddr pixels info.stride x y c) =
        (convertedPixel pix mem
          ⟨ay, args.yStride, au, args.uStride, av, args.vStride, args.uPixelStride⟩
          x y).byte c := by
  intro x hx y hy c hc
  rw [convert_completed_mem pix env bmp mem args info pixels ay au av hInfo hLock hY hU hV]
  exact android420Write_value _ _ _ _ _ _ _ _ _ _ _ hs hy hx hc

theorem convert_writes_bgra_layout_witness :
    ((⟨some ⟨2, 2, 8, 0⟩, some 200⟩ : BitmapEnv).getInfo = some ⟨2, 2, 8, 0⟩ ∧
      (⟨some ⟨2, 2, 8, 0⟩, some 200⟩ : BitmapEnv).lockPixels = some 200 ∧
      (⟨fun b => some (10 + 100 * (b : Int))⟩ : JniEnv).getDirectBufferAddress
        ((⟨0, 2, 1, 1, 1, 2, 1, 1, 2, 2⟩ : ConvertArgs).yBuffer) = some 10 ∧
      (⟨fun b => some (10 + 100 * (b : Int))⟩ : JniEnv).getDirectBufferAddress
        ((⟨0, 2, 1, 1, 1, 2, 1, 1, 2, 2⟩ : ConvertArgs).uBuffer) = some 110 ∧
      (⟨fun b => some (10 + 100 * (b : Int))⟩ : JniEnv).getDirectBufferAddress
        ((⟨0, 2, 1, 1, 1, 2, 1, 1, 2, 2⟩ : ConvertArgs).vBuffer) = some 210 ∧
      4 * (⟨0, 2, 1, 1, 1, 2, 1, 1, 2, 2⟩ : ConvertArgs).width.toNat ≤
        (⟨2, 2, 8, 0⟩ : AndroidBitmapInfo).stride) ∧
    (∀ x, x < (⟨0, 2, 1, 1, 1, 2, 1, 1, 2, 2⟩ : ConvertArgs).width.toNat →
      ∀ y, y < (⟨0, 2, 1, 1, 1, 2, 1, 1, 2, 2⟩ : ConvertArgs).height.toNat →
      ∀ c, c < 4 →
      (nativeConvertAndroid420ToBitmap (fun yv uv vv => ⟨yv, uv, vv, 255⟩)
          ⟨fun b => some (10 + 100 * (b : Int))⟩ ⟨some ⟨2, 2, 8, 0⟩, some 200⟩ (fun _ => 9)
          ⟨0, 2, 1, 1, 1, 2, 1, 1, 2, 2⟩).mem (dstAddr 200 8 x y c) =
        (convertedPixel (fun yv uv vv => ⟨yv, uv, vv, 255⟩) (fun _ => 9)
          ⟨10, 2, 110, 1, 210, 1, 1⟩ x y).byte c) :=
  ⟨⟨rfl, rfl, rfl, rfl, rfl, by decide⟩,
    convert_writes_bgra_layout (fun yv uv vv => ⟨yv, uv, vv, 255⟩)
      ⟨fun b => some (10 + 100 * (b : Int))⟩ ⟨some ⟨2, 2, 8, 0⟩, some 200⟩ (fun _ => 9)
      ⟨0, 2, 1, 1, 1, 2, 1, 1, 2, 2⟩ ⟨2, 2, 8, 0⟩ 200 10 110 210
      rfl rfl rfl rfl rfl (by decide)⟩

/-- Claim C8: on a successful call whose destination row stride strictly
exceeds `4 * width`: (i) within each destination row `y < height`, the
padding bytes at row offsets in `[4 * width, stride)` are unchanged by
the conversion; (ii) no byte outside the destination region of
`stride * height` bytes starting at the locked pixel base is changed. -/
theorem convert_padding_and_bounds (pix : PixFn) (env : JniEnv) (bmp : BitmapEnv)
    (mem : Mem) (args : ConvertArgs) (info : AndroidBitmapInfo) (pixels ay au av : Int)
    (hInfo : bmp.getInfo = some info) (hLock : bmp.lockPixels = some pixels)
    (hY : env.getDirectBufferAddress args.yBuffer = some ay)
    (hU : env.getDirectBufferAddress args.uBuffer = some au)
    (hV : env.getDirectBufferAddress args.vBuffer = some av)
    (hs : 4 * args.width.toNat < info.stride) :
    (∀ y, y < args.height.toNat → ∀ off, 4 * args.width.toNat ≤ off → off < info.stride →
      (nativeConvertAndroid420ToBitmap pix env bmp mem args).mem
          (pixels + ((y * info.stride + off : Nat) : Int)) =
        mem (pixels + ((y * info.stride + off : Nat) : Int))) ∧
    (∀ a : Int, a < pixels ∨ pixels + ((info.stride * args.height.toNat : Nat) : Int) ≤ a →
      (nativeConvertAndroid420ToBitmap pix env bmp mem args).mem a = mem a) := by
  rw [convert_completed_mem pix env bmp mem args info pixels ay au av hInfo hLock hY hU hV]
  constructor
  · intro y hy off hoff1 hoff2
    apply android420Write_frame
    intro y' hy' x' hx' c' hc' hEq
    unfold dstAddr at hEq
    have hEqN : y * info.stride + off = y' * info.stride + (4 * x' + c') := by
      have := add_left_cancel hEq
      exact_mod_cast this
    have hb : 4 * x' + c' < info.stride := by omega
    rcases rowOff_unique info.stride y y' off (4 * x' + c') hoff2 hb hEqN with ⟨h1, h2⟩
    omega
  · intro a ha
    apply android420Write_frame
    intro y' hy' x' hx' c' hc' hEq
    unfold dstAddr at hEq
    have hb : 4 * x' + c' < info.stride := by omega
    have hn : y' * info.stride + (4 * x' + c') < info.stride * args.height.toNat := by
      have h1 : (y' + 1) * info.stride ≤ args.height.toNat * info.stride :=
        mul_le_mul_right' (by omega) _
      rw [add_one_mul] at h1
      rw [Nat.mul_comm info.stride args.height.toNat]
      generalize y' * info.stride = A at h1 ⊢
      generalize args.height.toNat * info.stride = B at h1 ⊢
      omega
    generalize hA : (y' * info.stride + (4 * x' + c') : Nat) = n at hEq hn
    generalize hB : (info.stride * args.height.toNat : Nat) = N at ha hn
    rcases ha with ha | ha <;> omega

theorem convert_padding_and_bounds_witness :
    ((⟨some ⟨2, 2, 12, 0⟩, some 200⟩ : BitmapEnv).getInfo = some ⟨2, 2, 12, 0⟩ ∧
      (⟨some ⟨2, 2, 12, 0⟩, some 200⟩ : BitmapEnv).lockPixels = some 200 ∧
      (⟨fun b => some (10 + 100 * (b : Int))⟩ : JniEnv).getDirectBufferAddress
        ((⟨0, 2, 1, 1, 1, 2, 1, 1, 2, 2⟩ : ConvertArgs).yBuffer) = some 10 ∧
      (⟨fun b => some (10 + 100 * (b : Int))⟩ : JniEnv).getDirectBufferAddress
        ((⟨0, 2, 1, 1, 1, 2, 1, 1, 2, 2⟩ : ConvertArgs).uBuffer) = some 110 ∧
      (⟨fun b => some (10 + 100 * (b : Int))⟩ : JniEnv).getDirectBufferAddress
        ((⟨0, 2, 1, 1, 1, 2, 1, 1, 2, 2⟩ : ConvertArgs).vBuffer) = some 210 ∧
      4 * (⟨0, 2, 1, 1, 1, 2, 1, 1, 2, 2⟩ : ConvertArgs).width.toNat <
        (⟨2, 2, 12, 0⟩ : AndroidBitmapInfo).stride) ∧
    ((∀ y, y < (⟨0, 2, 1, 1, 1, 2, 1, 1, 2, 2⟩ : ConvertArgs).height.toNat →
      ∀ off, 4 * (⟨0, 2, 1, 1, 1, 2, 1, 1, 2, 2⟩ : ConvertArgs).width.toNat ≤ off →
        off < (⟨2, 2, 12, 0⟩ : AndroidBitmapInfo).stride →
      (nativeConvertAndroid420ToBitmap (fun yv uv vv => ⟨yv, uv, vv, 255⟩)
          ⟨fun b => some (10 + 100 * (b : Int))⟩ ⟨some ⟨2, 2, 12, 0⟩, some 200⟩ (fun _ => 9)
          ⟨0, 2, 1, 1, 1, 2, 1, 1, 2, 2⟩).mem (200 + ((y * 12 + off : Nat) : Int)) =
        (fun _ => 9 : Mem) (200 + ((y * 12 + off : Nat) : Int))) ∧
    (∀ a : Int, a < 200 ∨ 200 + ((12 * 2 : Nat) : Int) ≤ a →
      (nativeConvertAndroid420ToBitmap (fun yv uv vv => ⟨yv, uv, vv, 255⟩)
          ⟨fun b => some (10 + 100 * (b : Int))⟩ ⟨some ⟨2, 2, 12, 0⟩, some 200⟩ (fun _ => 9)
          ⟨0, 2, 1, 1, 1, 2, 1, 1, 2, 2⟩).mem a = (fun _ => 9 : Mem) a)) :=
  ⟨⟨rfl, rfl, rfl, rfl, rfl, by decide⟩,
    convert_padding_and_bounds (fun yv uv vv => ⟨yv, uv, vv, 255⟩)
      ⟨fun b => some (10 + 100 * (b : Int))⟩ ⟨some ⟨2, 2, 12, 0⟩, some 200⟩ (fun _ => 9)
      ⟨0, 2, 1, 1, 1, 2, 1, 1, 2, 2⟩ ⟨2, 2, 12, 0⟩ 200 10 110 210
      rfl rfl rfl rfl rfl (by decide)⟩

/-- Claim C7: two successful calls encoding the same logical image — the
first fully planar (chroma pixel stride 1), the second
semi-planar/interleaved (chroma pixel stride 2) — that target the same
destination (same bitmap info, same locked pixel base, initial
destination region contents agreeing) with the same dimensions produce
byte-identical destination contents.  "Same logical image" means the
sampled Y, U, V values agree at every destination pixel; the chroma
sample hypotheses read the first input at pixel stride 1 and the second
at pixel stride 2. -/
theorem convert_planar_semiplanar_agree (pix : PixFn) (env1 env2 : JniEnv)
    (bmp : BitmapEnv) (mem1 mem2 : Mem) (args1 args2 : ConvertArgs)
    (info : AndroidBitmapInfo) (pixels ay1 au1 av1 ay2 au2 av2 : Int)
    (hInfo : bmp.getInfo = some info) (hLock : bmp.lockPixels = some pixels)
    (hY1 : env1.getDirectBufferAddress args1.yBuffer = some ay1)
    (hU1 : env1.getDirectBufferAddress args1.uBuffer = some au1)
    (hV1 : env1.getDirectBufferAddress args1.vBuffer = some av1)
    (hY2 : env2.getDirectBufferAddress args2.yBuffer = some ay2)
    (hU2 : env2.getDirectBufferAddress args2.uBuffer = some au2)
    (hV2 : env2.getDirectBufferAddress args2.vBuffer = some av2)
    (hp1 : args1.uPixelStride = 1) (hp2 : args2.uPixelStride = 2)
    (hw : args2.width = args1.width) (hh : args2.height = args1.height)
    (hs : 4 * args1.width.toNat ≤ info.stride)
    (hsY : ∀ x, x < args1.width.toNat → ∀ y, y < args1.height.toNat →
      sampleY mem1 ay1 args1.yStride x y = sampleY mem2 ay2 args2.yStride x y)
    (hsU : ∀ x, x < args1.width.toNat → ∀ y, y < args1.height.toNat →
      sampleChroma mem1 au1 args1.uStride 1 x y = sampleChroma mem2 au2 args2.uStride 2 x y)
    (hsV : ∀ x, x < args1.width.toNat → ∀ y, y < args1.height.toNat →
      sampleChroma mem1 av1 args1.vStride 1 x y = sampleChroma mem2 av2 args2.vStride 2 x y)
    (hdst : ∀ off, off < info.stride * args1.height.toNat →
      mem1 (pixels + (off : Int)) = mem2 (pixels + (off : Int))) :
    ∀ off, off < info.stride * args1.height.toNat →
      (nativeConvertAndroid420ToBitmap pix env1 bmp mem1 args1).mem (pixels + (off : Int)) =
        (nativeConvertAndroid420ToBitmap pix env2 bmp mem2 args2).mem (pixels + (off : Int)) := by
  intro off hoff
  rw [convert_completed_mem pix env1 bmp mem1 args1 info pixels ay1 au1 av1 hInfo hLock
      hY1 hU1 hV1,
    convert_completed_mem pix env2 bmp mem2 args2 info pixels ay2 au2 av2 hInfo hLock
      hY2 hU2 hV2, hw, hh]
  have hs0 : 0 < info.stride := by
    rcases Nat.eq_zero_or_pos info.stride with h0 | h0
    · rw [h0] at hoff
      omega
    · exact h0
  obtain ⟨y, r, hy, hr, hoffeq⟩ :
      ∃ y r, y < args1.height.toNat ∧ r < info.stride ∧ off = y * info.stride + r := by
    refine ⟨off / info.stride, off % info.stride, ?_, Nat.mod_lt _ hs0, ?_⟩
    · exact (Nat.div_lt_iff_lt_mul hs0).mpr (by rw [Nat.mul_comm]; exact hoff)
    · rw [Nat.mul_comm]
      exact (Nat.div_add_mod off info.stride).symm
  by_cases hcase : r < 4 * args1.width.toNat
  · obtain ⟨x, c, hx, hc, hrq⟩ :
        ∃ x c, x < args1.width.toNat ∧ c < 4 ∧ r = 4 * x + c := by
      refine ⟨r / 4, r % 4, ?_, Nat.mod_lt _ (by omega), (Nat.div_add_mod r 4).symm⟩
      exact (Nat.div_lt_iff_lt_mul (by omega)).mpr (by rw [Nat.mul_comm]; exact hcase)
    have haddr : pixels + (off : Int) = dstAddr pixels info.stride x y c := by
      unfold dstAddr
      rw [hoffeq, hrq]
    rw [haddr,
      android420Write_value _ _ _ _ _ _ _ _ _ _ _ hs hy hx hc,
      android420Write_value _ _ _ _ _ _ _ _ _ _ _ hs hy hx hc]
    simp only [convertedPixel]
    rw [hp1, hp2, hsY x hx y hy, hsU x hx y hy, hsV x hx y hy]
  · have hnotin : ∀ y', y' < args1.height.toNat → ∀ x', x' < args1.width.toNat →
        ∀ c', c' < 4 → pixels + (off : Int) ≠ dstAddr pixels info.stride x' y' c' := by
      intro y' hy' x' hx' c' hc' hEq
      unfold dstAddr at hEq
      have hEqN : off = y' * info.stride + (4 * x' + c') := by
        exact_mod_cast add_left_cancel hEq
      have hb : 4 * x' + c' < info.stride := by omega
      rw [hoffeq] at hEqN
      rcases rowOff_unique info.stride y y' r (4 * x' + c') hr hb hEqN with ⟨h1, h2⟩
      omega
    rw [android420Write_frame _ _ _ _ _ _ _ _ _ hnotin,
      android420Write_frame _ _ _ _ _ _ _ _ _ hnotin]
    exact hdst off hoff

theorem convert_planar_semiplanar_agree_witness :
    ((⟨some ⟨2, 2, 8, 0⟩, some 200⟩ : BitmapEnv).getInfo = some ⟨2, 2, 8, 0⟩ ∧
      (⟨some ⟨2, 2, 8, 0⟩, some 200⟩ : BitmapEnv).lockPixels = some 200 ∧
      (⟨fun b => some (10 + 100 * (b : Int))⟩ : JniEnv).getDirectBufferAddress
        ((⟨0, 2, 1, 1, 1, 2, 1, 1, 2, 2⟩ : ConvertArgs).yBuffer) = some 10 ∧
      (⟨fun b => some (10 + 100 * (b : Int))⟩ : JniEnv).getDirectBufferAddress
        ((⟨0, 2, 1, 1, 1, 2, 1, 1, 2, 2⟩ : ConvertArgs).uBuffer) = some 110 ∧
      (⟨fun b => some (10 + 100 * (b : Int))⟩ : JniEnv).getDirectBufferAddress
        ((⟨0, 2, 1, 1, 1, 2, 1, 1, 2, 2⟩ : ConvertArgs).vBuffer) = some 210 ∧
      (⟨fun b => some (10 + 100 * (b : Int))⟩ : JniEnv).getDirectBufferAddress
        ((⟨0, 2, 1, 2, 2, 2, 2, 2, 2, 2⟩ : ConvertArgs).yBuffer) = some 10 ∧
      (⟨fun b => some (10 + 100 * (b : Int))⟩ : JniEnv).getDirectBufferAddress
        ((⟨0, 2, 1, 2, 2, 2, 2, 2, 2, 2⟩ : ConvertArgs).uBuffer) = some 110 ∧
      (⟨fun b => some (10 + 100 * (b : Int))⟩ : JniEnv).getDirectBufferAddress
        ((⟨0, 2, 1, 2, 2, 2, 2, 2, 2, 2⟩ : ConvertArgs).vBuffer) = some 210 ∧
      (⟨0, 2, 1, 1, 1, 2, 1, 1, 2, 2⟩ : ConvertArgs).uPixelStride = 1 ∧
      (⟨0, 2, 1, 2, 2, 2, 2, 2, 2, 2⟩ : ConvertArgs).uPixelStride = 2 ∧
      (⟨0, 2, 1, 2, 2, 2, 2, 2, 2, 2⟩ : ConvertArgs).width =
        (⟨0, 2, 1, 1, 1, 2, 1, 1, 2, 2⟩ : ConvertArgs).width ∧
      (⟨0, 2, 1, 2, 2, 2, 2, 2, 2, 2⟩ : ConvertArgs).height =
        (⟨0, 2, 1, 1, 1, 2, 1, 1, 2, 2⟩ : ConvertArgs).height ∧
      4 * (⟨0, 2, 1, 1, 1, 2, 1, 1, 2, 2⟩ : ConvertArgs).width.toNat ≤
        (⟨2, 2, 8, 0⟩ : AndroidBitmapInfo).stride ∧
      (∀ x, x < (2 : Nat) → ∀ y, y < (2 : Nat) →
        sampleY (fun _ => 7) 10 2 x y = sampleY (fun _ => 7) 10 2 x y) ∧
      (∀ x, x < (2 : Nat) → ∀ y, y < (2 : Nat) →
        sampleChroma (fun _ => 7) 110 2 1 x y = sampleChroma (fun _ => 7) 110 2 2 x y) ∧
      (∀ x, x < (2 : Nat) → ∀ y, y < (2 : Nat) →
        sampleChroma (fun _ => 7) 210 2 1 x y = sampleChroma (fun _ => 7) 210 2 2 x y) ∧
      (∀ off, off < (16 : Nat) →
        (fun _ => 7 : Mem) (200 + (off : Int)) = (fun _ => 7 : Mem) (200 + (off : Int)))) ∧
    (∀ off, off < (16 : Nat) →
      (nativeConvertAndroid420ToBitmap (fun yv uv vv => ⟨yv, uv, vv, 255⟩)
          ⟨fun b => some (10 + 100 * (b : Int))⟩ ⟨some ⟨2, 2, 8, 0⟩, some 200⟩ (fun _ => 7)
          ⟨0, 2, 1, 1, 1, 2, 1, 1, 2, 2⟩).mem (200 + (off : Int)) =
        (nativeConvertAndroid420ToBitmap (fun yv uv vv => ⟨yv, uv, vv, 255⟩)
          ⟨fun b => some (10 + 100 * (b : Int))⟩ ⟨some ⟨2, 2, 8, 0⟩, some 200⟩ (fun _ => 7)
          ⟨0, 2, 1, 2, 2, 2, 2, 2, 2, 2⟩).mem (200 + (off : Int))) :=
  ⟨⟨rfl, rfl, rfl, rfl, rfl, rfl, rfl, rfl, rfl, rfl, rfl, rfl, by decide,
      by decide, by decide, by decide, by decide⟩,
    convert_planar_semiplanar_agree (fun yv uv vv => ⟨yv, uv, vv, 255⟩)
      ⟨fun b => some (10 + 100 * (b : Int))⟩ ⟨fun b => some (10 + 100 * (b : Int))⟩
      ⟨some ⟨2, 2, 8, 0⟩, some 200⟩ (fun _ => 7) (fun _ => 7)
      ⟨0, 2, 1, 1, 1, 2, 1, 1, 2, 2⟩ ⟨0, 2, 1, 2, 2, 2, 2, 2, 2, 2⟩
      ⟨2, 2, 8, 0⟩ 200 10 110 210 10 110 210
      rfl rfl rfl rfl rfl rfl rfl rfl rfl rfl rfl rfl (by decide)
      (by decide) (by decide) (by decide) (by decide)⟩

end FaceAI
